import Mathlib

/-!
Shallow embedding of the varcor configuration-value parsing library
(`src/variables/*.ts`, `src/util/DateObject.ts`, `src/variables/InferValues.ts`).

Conventions of the embedding:
* TypeScript `Result<T, string[]>` (`src/variables/Result.ts` and the `@/util`
  variant) is the inductive `Varcor.Result`: `success` carries `Option α`
  because the source stores `undefined` inside a success
  (`Result.success(undefined)` for optional absent variables); `none` models
  `undefined`.
* An absent string (`undefined`) is `Option String` with `none`.
* JS truthiness, where the source relies on it (`a.default || b.default`,
  `if (value.tzhour)`), is passed in explicitly as a `tr : α → Bool` function
  or computed for the concrete value types.
-/

namespace Varcor

/-- `Result<T, string[]>` from `src/variables/Result.ts`: success/failure tagged
union.  `success` holds `Option α` since the source can store `undefined` in a
success. -/
inductive Result (α : Type) where
  | success : Option α → Result α
  | failure : List String → Result α
deriving DecidableEq

/-- Discriminant `result.success` of the source type. -/
def Result.isSuccess {α : Type} : Result α → Bool
  | .success _ => true
  | .failure _ => false

/-- The `error` (issues) payload of a failure; `[]` for a success. -/
def Result.errorOf {α : Type} : Result α → List String
  | .success _ => []
  | .failure es => es

/-- The observable state of one non-aggregate `Variable` instance
(`src/variables/Variable.ts`): the `#optional` flag, the `#default` value and
the subclass `__parse` routine (a guaranteed-present string to a `Result`).
`#default` is `Option α`; `none` models `undefined` (no default). -/
structure VariableCore (α : Type) where
  optional : Bool
  default : Option α
  parseRaw : String → Result α

/-- A `Variable` is either a plain (subclass) variable or an
`AggregateVariable` (`src/variables/Variable.ts`, class `AggregateVariable`).
The aggregate's member list holds non-aggregate variables only: the
constructor always splices nested aggregates (flattening), so members are
`VariableCore`s. -/
inductive Variable (α : Type) where
  | base : VariableCore α → Variable α
  | agg : Bool → Option α → List (VariableCore α) → Variable α

/-- `Variable.isOptional` getter. -/
def Variable.isOptional {α : Type} : Variable α → Bool
  | .base c => c.optional
  | .agg o _ _ => o

/-- `Variable.default` getter. -/
def Variable.defaultVal {α : Type} : Variable α → Option α
  | .base c => c.default
  | .agg _ d _ => d

/-- Loop body of `AggregateVariable.__parse` (Variable.ts lines 196-208):
iterate members in order calling `variable.parse(value)` with the present
`value` (which reduces to the member's `__parse`), return the first success,
otherwise push every member's issues and fail with the accumulated list. -/
def aggLoop {α : Type} : List (VariableCore α) → String → List String → Result α
  | [], _, issues => .failure issues
  | m :: ms, s, issues =>
    match m.parseRaw s with
    | .success v => .success v
    | .failure errs => aggLoop ms s (issues ++ errs)

/-- Dispatch of the protected `__parse` hook: subclass routine for a plain
variable, the member loop for an `AggregateVariable`. -/
def Variable.parseStr {α : Type} : Variable α → String → Result α
  | .base c, s => c.parseRaw s
  | .agg _ _ ms, s => aggLoop ms s []

/-- The absent-input branch of `Variable.parse` (Variable.ts lines 34-41):
optional wins first (`success(undefined)`), then a set default
(`success(default)`), otherwise `failure(['is required'])`. -/
def absentParse {α : Type} (optional : Bool) (dflt : Option α) : Result α :=
  if optional then .success none
  else
    match dflt with
    | some d => .success (some d)
    | none => .failure ["is required"]

/-- `Variable.parse` (Variable.ts lines 31-42): a present value (any string,
including `""`) is delegated to `__parse`; an absent value goes through the
optional/default/required logic. -/
def Variable.parse {α : Type} (v : Variable α) : Option String → Result α
  | some s => v.parseStr s
  | none => absentParse v.isOptional v.defaultVal

/-- JS truthiness test of an optional value: `undefined` is falsy, a present
value is as the supplied `tr` says. -/
def truthyOpt {α : Type} (tr : α → Bool) : Option α → Bool
  | some x => tr x
  | none => false

/-- JS `a || b` over two optional values (used for
`from?.default || variable?.default` in the `AggregateVariable` constructor). -/
def jsOr {α : Type} (tr : α → Bool) (a b : Option α) : Option α :=
  if truthyOpt tr a then a else b

/-- Member contribution of the `from` argument in the `AggregateVariable`
constructor (Variable.ts lines 165-166): members are spliced only when `from`
is itself an `AggregateVariable`; a plain variable contributes nothing (the
source has no `else` branch pushing `from`). -/
def membersFromSelf {α : Type} : Variable α → List (VariableCore α)
  | .base _ => []
  | .agg _ _ ms => ms

/-- Member contribution of the `variable` argument (Variable.ts lines 168-173):
an aggregate is spliced, a plain variable is pushed. -/
def membersOfArg {α : Type} : Variable α → List (VariableCore α)
  | .base c => [c]
  | .agg _ _ ms => ms

/-- `a.else(b)` = `new AggregateVariable(a, b)` (Variable.ts lines 113-115 and
159-174): `optional` is the disjunction, `default` is the JS `||` of the two
defaults, and the member list is built from the two contributions above. -/
def Variable.elseVar {α : Type} (tr : α → Bool) (a b : Variable α) : Variable α :=
  .agg (a.isOptional || b.isOptional)
    (jsOr tr a.defaultVal b.defaultVal)
    (membersFromSelf a ++ membersOfArg b)

/-- State of a `TransformedVariable` (Variable.ts lines 219-266): base-class
optional/default state, the wrapped source variable and the transformer.  The
transformer takes `Option α` because the source applies it to `result.value`,
which can be `undefined` when the wrapped parse succeeded with `undefined`. -/
structure TransformedVariable (α β : Type) where
  optional : Bool
  default : Option β
  src : Variable α
  transformFn : Option α → Result β

/-- `TransformedVariable.parse` (Variable.ts lines 250-257): when the input is
absent and the variable is optional or has a default, run the base class's
absent logic (`super.parse`); otherwise parse with the wrapped variable,
propagate a failure untouched, and apply the transformer to a success's
value. -/
def TransformedVariable.parse {α β : Type} (t : TransformedVariable α β)
    (value : Option String) : Result β :=
  if value = none ∧ (t.optional || t.default.isSome) then
    absentParse t.optional t.default
  else
    match t.src.parse value with
    | .success v => t.transformFn v
    | .failure is => .failure is

/-! ### StringVariable (`src/variables/StringVariable.ts`) -/

/-- A string validator, after erasing the `StringValidator | RegExp` union:
a `RegExp` entry acts through `validateRegex` (success = first match text,
failure = `must match …`), so every entry is observationally a function from
the input string to a `Result`. -/
abbrev StringValidator := String → Result String

/-- Loop of `StringVariable.__parse` for a non-empty validator list
(StringVariable.ts lines 36-47): run validators in order, return the first
success (its own `Result`, short-circuiting the rest), collect every failing
validator's messages, and fail with the accumulated list when all fail. -/
def validatorLoop : List StringValidator → String → List String → Result String
  | [], _, issues => .failure issues
  | f :: fs, value, issues =>
    match f value with
    | .success r => .success r
    | .failure errs => validatorLoop fs value (issues ++ errs)

/-- `StringVariable.__parse` (StringVariable.ts lines 34-52): with validators,
run the loop; with an empty list, succeed with the input itself. -/
def StringVariable.parseStr (validators : List StringValidator) (value : String) :
    Result String :=
  if validators.length ≠ 0 then validatorLoop validators value []
  else .success (some value)

/-! #### Instance/heap model for the cloning contract (claim C7)

`StringVariable` keeps its validator list in a private mutable array; clones
copy it with `[...from.#validators]` and `validate` pushes onto the clone's
array.  To state that mutation of a clone never affects the original, arrays
live in an explicit store (`ValidatorHeap`) and each instance holds a
reference into it. -/

/-- The array store: cell `r` is the backing array of one instance's
`#validators`. -/
abbrev ValidatorHeap := List (List StringValidator)

/-- A `StringVariable` instance: base-class fields plus the reference to its
`#validators` array. -/
structure StringVariableRef where
  optional : Bool
  default : Option String
  validatorsRef : Nat

/-- Read an array cell (a dangling reference reads as `[]`). -/
def heapGet (h : ValidatorHeap) (r : Nat) : List StringValidator :=
  h.getD r []

/-- `StringVariable.__clone` / constructor (StringVariable.ts lines 18-22 and
54-56): `this.#validators = [...from.#validators]` allocates a fresh array
holding a copy of the source's contents. -/
def cloneStringVariable (h : ValidatorHeap) (v : StringVariableRef) :
    ValidatorHeap × StringVariableRef :=
  (h ++ [heapGet h v.validatorsRef], ⟨v.optional, v.default, h.length⟩)

/-- `StringVariable.validate` (StringVariable.ts lines 28-32): clone, then
`newVar.#validators.push(validator)` mutates the clone's array in place. -/
def validateStringVariable (h : ValidatorHeap) (v : StringVariableRef)
    (f : StringValidator) : ValidatorHeap × StringVariableRef :=
  let c := cloneStringVariable h v
  (c.1.set c.2.validatorsRef (heapGet c.1 c.2.validatorsRef ++ [f]), c.2)

/-- `Variable.optional` (Variable.ts lines 89-94) applied to a
`StringVariable`: clone (fresh array via the subclass `__clone`), then set
`#optional = true` and clear `#default` on the clone. -/
def optionalStringVariable (h : ValidatorHeap) (v : StringVariableRef) :
    ValidatorHeap × StringVariableRef :=
  let c := cloneStringVariable h v
  (c.1, { c.2 with optional := true, default := none })

/-- `Variable.defaultTo` (Variable.ts lines 101-106) applied to a
`StringVariable`: clone, then set `#optional = false` and `#default = value`
on the clone. -/
def defaultToStringVariable (h : ValidatorHeap) (v : StringVariableRef)
    (x : String) : ValidatorHeap × StringVariableRef :=
  let c := cloneStringVariable h v
  (c.1, { c.2 with optional := false, default := some x })

/-! ### IntegerVariable (`src/variables/IntegerVariable.ts`) -/

/-- Decimal digit (regex class `[0-9]`). -/
def isDecDigit (c : Char) : Bool := '0' ≤ c && c ≤ '9'

/-- Binary digit (regex class `[01]`). -/
def isBinDigit (c : Char) : Bool := c = '0' || c = '1'

/-- Hexadecimal digit (regex class `[0-9A-F]` under the `i` flag). -/
def isHexDigit (c : Char) : Bool :=
  isDecDigit c || ('A' ≤ c && c ≤ 'F') || ('a' ≤ c && c ≤ 'f')

/-- Numeric value of one digit character. -/
def digitVal (c : Char) : Nat :=
  if isDecDigit c then c.toNat - '0'.toNat
  else if 'a' ≤ c && c ≤ 'f' then c.toNat - 'a'.toNat + 10
  else if 'A' ≤ c && c ≤ 'F' then c.toNat - 'A'.toNat + 10
  else 0

/-- `Number.parseInt(text, base)` on a well-formed digit string. -/
def natOfDigits (base : Nat) (cs : List Char) : Nat :=
  cs.foldl (fun a c => a * base + digitVal c) 0

/-- The match of `/^(?:([0-9]+)|(?:0b([01]+))|(?:0x([0-9A-F]+)))$/i` together
with the base selection of IntegerVariable.ts line 75: group 1 (all decimal
digits) parsed base 10, a `0b`/`0B` prefix with binary digits parsed base 2,
a `0x`/`0X` prefix with hex digits parsed base 16; anything else (including
fractional input) does not match. -/
def integerMatch (s : String) : Option Nat :=
  let cs := s.data
  if cs ≠ [] ∧ cs.all isDecDigit then some (natOfDigits 10 cs)
  else
    match cs with
    | '0' :: b :: rest =>
      if (b = 'b' ∨ b = 'B') ∧ rest ≠ [] ∧ rest.all isBinDigit then
        some (natOfDigits 2 rest)
      else if (b = 'x' ∨ b = 'X') ∧ rest ≠ [] ∧ rest.all isHexDigit then
        some (natOfDigits 16 rest)
      else none
    | _ => none

/-- State of an `IntegerVariable`: base-class fields plus `#min`/`#max`. -/
structure IntegerVariable where
  optional : Bool := false
  default : Option Int := none
  min : Option Int := none
  max : Option Int := none

/-- `IntegerVariable.min` (lines 35-39): stores `Math.ceil(value)`. -/
def IntegerVariable.setMin (v : IntegerVariable) (value : ℚ) : IntegerVariable :=
  { v with min := some ⌈value⌉ }

/-- `IntegerVariable.max` (lines 46-50): stores `Math.floor(value)`. -/
def IntegerVariable.setMax (v : IntegerVariable) (value : ℚ) : IntegerVariable :=
  { v with max := some ⌊value⌋ }

/-- The range-violation message built at the top of `__parse`
(IntegerVariable.ts lines 62-66). -/
def IntegerVariable.rangeError (v : IntegerVariable) : String :=
  match v.min, v.max with
  | some m, some M => s!"must be between {m} and {M}"
  | some m, none => s!"must be greater than or equal to {m}"
  | none, some M => s!"must be less than or equal to {M}"
  | none, none => ""

/-- `IntegerVariable.__parse` (lines 57-82): match the literal regex, fail with
`must be an integer` on no match, otherwise compare the parsed integer against
the configured bounds (`-Infinity`/`Infinity` when unset). -/
def IntegerVariable.parseStr (v : IntegerVariable) (value : String) : Result Int :=
  match integerMatch value with
  | none => .failure ["must be an integer"]
  | some n =>
    let i : Int := n
    let minOk : Bool := match v.min with | some m => decide (m ≤ i) | none => true
    let maxOk : Bool := match v.max with | some M => decide (i ≤ M) | none => true
    if minOk && maxOk then .success (some i) else .failure [v.rangeError]

/-! ### DateObject (`src/util/DateObject.ts`) and DateObjectVariable
(`src/variables/index.ts` `__parse`, lines 55-73 of the DateObjectVariable
variant) -/

/-- A raw component value: the source declares `number | string` fields in
`DateObjectRaw`.  Regex capture groups always supply strings; numeric inputs
(always integral in the library) are modelled at integer precision. -/
inductive RawVal where
  | str : String → RawVal
  | num : Int → RawVal

/-- `DateObjectRaw`: the named capture groups / raw components. -/
structure DateObjectRaw where
  year : Option RawVal := none
  month : Option RawVal := none
  day : Option RawVal := none
  hour : Option RawVal := none
  minute : Option RawVal := none
  second : Option RawVal := none
  ms : Option RawVal := none
  tzutc : Option String := none
  tzhour : Option RawVal := none
  tzminute : Option RawVal := none

/-- `TimeZone = 'Z' | { hour, minute }`. -/
inductive TimeZone where
  | z : TimeZone
  | offset : Int → Int → TimeZone
deriving DecidableEq

/-- The validated date object. -/
structure DateObject where
  year : Int
  month : Int
  day : Int
  hour : Int
  minute : Int
  second : Int
  ms : Int
  tz : Option TimeZone
deriving DecidableEq

/-- `Number.parseInt` on a string (base 10): optional sign, then the longest
leading digit run; `none` models `NaN` (no leading digits). -/
def jsParseInt (s : String) : Option Int :=
  let core : List Char → Option Int := fun cs =>
    let ds := cs.takeWhile isDecDigit
    if ds = [] then none else some (natOfDigits 10 ds : Nat)
  match s.data with
  | '-' :: rest => (core rest).map (fun n => -n)
  | '+' :: rest => core rest
  | cs => core cs

/-- JS truthiness of an optional `number | string` component: `undefined`,
`""` and `0` are falsy. -/
def truthyRawOpt : Option RawVal → Bool
  | some (.str s) => s ≠ ""
  | some (.num n) => n ≠ 0
  | none => false

/-- `toLocaleUpperCase` on the ASCII strings the library feeds it (month
names, timezone markers). -/
def jsToUpper (s : String) : String := String.mk (s.data.map Char.toUpper)

/-- The issue text of `validateItem` (DateObject.ts line 73), template
literal preserved verbatim: with a `max` the text says `greater than ${min}`,
without one it says `a number ${min}-${max}` where `max` prints as
`undefined`. -/
def itemMsg (name : String) (min : Int) (max : Option Int) : String :=
  s!".{name} must be " ++
    (match max with
     | some _ => s!"greater than {min}"
     | none => s!"a number {min}-undefined")

/-- `validateItem` (DateObject.ts lines 66-76): strings go through
`Number.parseInt` (NaN = `none`), `undefined` becomes the default; an issue is
pushed when the value is NaN or out of range; the returned component is
`value || defaultTo` (so NaN and `0` both yield the default). -/
def validateItem (name : String) (value : Option RawVal) (defaultTo : Int)
    (min : Int) (max : Option Int) : Int × List String :=
  let parsed : Option Int :=
    match value with
    | some (.str s) => jsParseInt s
    | some (.num n) => some n
    | none => some defaultTo
  match parsed with
  | none => (defaultTo, [itemMsg name min max])
  | some v =>
    let bad : Bool :=
      decide (v < min) || (match max with | some M => decide (M < v) | none => false)
    (if v = 0 then defaultTo else v, if bad then [itemMsg name min max] else [])

/-- `monthNames` (DateObject.ts line 20). -/
def monthNames : List String :=
  ["JANUARY", "FEBRUARY", "MARCH", "APRIL", "MAY", "JUNE", "JULY", "AUGUST",
   "SEPTEMBER", "OCTOBER", "NOVEMBER", "DECEMBER"]

/-- `monthMap` (lines 22-24): each month name and its 3-letter prefix map to
the 1-based month number. -/
def monthPairs : List (String × Int) :=
  (monthNames.enum.map fun p => [(p.2, (p.1 : Int) + 1), (p.2.take 3, (p.1 : Int) + 1)]).flatten

/-- Lookup in `monthMap`. -/
def monthLookup (s : String) : Option Int :=
  (monthPairs.find? (fun p => p.1 = s)).map (·.2)

/-- JS `%` (truncated remainder). -/
def jsMod (a b : Int) : Int := Int.tmod a b

/-- `leapYear` (line 15). -/
def leapYear (year : Int) : Int :=
  if (jsMod year 4 = 0 ∧ jsMod year 100 ≠ 0) ∨ jsMod year 400 = 0 then 1 else 0

/-- `regularDays` (line 18). -/
def regularDays : List Int := [31, 28, 31, 30, 31, 30, 31, 31, 30, 31, 30, 31]

/-- `monthDays` (line 25): `(regularDays[month-1] ?? 30) + leapYear(year)`;
an out-of-range index reads `undefined` and falls back to 30. -/
def monthDays (year month : Int) : Int :=
  (if 1 ≤ month ∧ month ≤ 12 then regularDays.getD (month - 1).toNat 30 else 30) +
    leapYear year

/-- Lines 92-95 of DateObject.ts: a truthy `tzutc` equal (case-insensitively)
to `Z` selects the zero marker. -/
def tzutcTruthy (tzutc : Option String) : Bool :=
  match tzutc with | some s => s ≠ "" | none => false

/-- The zero-marker selection itself. -/
def tzZeroMarker (tzutc : Option String) : Option TimeZone :=
  if tzutcTruthy tzutc ∧ jsToUpper (tzutc.getD "") = "Z" then some .z else none

/-- The timezone block of `DateObject.from` (lines 91-110): after the zero
marker, a truthy `tzhour` conflicts with an already-set marker, validates
hour/minute parts, and accepts the offset only within ±14:00.  Returns the
final `tz` and the issues pushed by the block, in push order. -/
def tzCompute (tzutc : Option String) (tzhour tzminute : Option RawVal) :
    Option TimeZone × List String :=
  let tz0 := tzZeroMarker tzutc
  if truthyRawOpt tzhour then
    let conflict : List String :=
      if tz0.isSome then [".tz can only be Z (UTC) or an offset"] else []
    let hr := validateItem "tzhour" tzhour 0 (-14) (some 14)
    let mr := validateItem "tzminute" tzminute 0 0 (some 59)
    let tzoffset := hr.1 * 100 + (if hr.1 < 0 then -mr.1 else mr.1)
    if tzoffset < -1400 ∨ 1400 < tzoffset then
      (tz0, conflict ++ hr.2 ++ mr.2 ++ [".tz must be an offset between -14:00 and +14:00"])
    else
      (some (.offset hr.1 mr.1), conflict ++ hr.2 ++ mr.2)
  else (tz0, [])

/-- Line 83-84 of DateObject.ts: a string month goes through the (upper-cased)
month-name map; `monthString ?? value.month` falls back to the raw value. -/
def monthArgOf (value : DateObjectRaw) : Option RawVal :=
  match (match value.month with
         | some (.str s) => monthLookup (jsToUpper s)
         | _ => none) with
  | some m => some (.num m)
  | none => value.month

/-- The `year` call of `DateObject.from` (line 82). -/
def yearItem (value : DateObjectRaw) : Int × List String :=
  validateItem "year" value.year 2000 0 none

/-- The `month` call (line 84). -/
def monthItem (value : DateObjectRaw) : Int × List String :=
  validateItem "month" (monthArgOf value) 1 1 (some 12)

/-- The `day` call (line 85): the day range depends on the already-validated
year and month through the leap-year-aware `monthDays`. -/
def dayItem (value : DateObjectRaw) : Int × List String :=
  validateItem "day" value.day 1 1
    (some (monthDays (yearItem value).1 (monthItem value).1))

/-- The `hour` call (line 86). -/
def hourItem (value : DateObjectRaw) : Int × List String :=
  validateItem "hour" value.hour 0 0 (some 23)

/-- The `minute` call (line 87). -/
def minuteItem (value : DateObjectRaw) : Int × List String :=
  validateItem "minute" value.minute 0 0 (some 59)

/-- The `second` call (line 88). -/
def secondItem (value : DateObjectRaw) : Int × List String :=
  validateItem "second" value.second 0 0 (some 59)

/-- The `ms` call (line 89). -/
def msItem (value : DateObjectRaw) : Int × List String :=
  validateItem "ms" value.ms 0 0 (some 999)

/-- The timezone block (lines 91-110). -/
def tzItem (value : DateObjectRaw) : Option TimeZone × List String :=
  tzCompute value.tzutc value.tzhour value.tzminute

/-- The full issue list of `DateObject.from`, in push order. -/
def fromRawIssues (value : DateObjectRaw) : List String :=
  (yearItem value).2 ++ (monthItem value).2 ++ (dayItem value).2 ++
    (hourItem value).2 ++ (minuteItem value).2 ++ (secondItem value).2 ++
    (msItem value).2 ++ (tzItem value).2

/-- `DateObject.from` (DateObject.ts lines 79-114): validate every component
with `validateItem` (month first going through the month-name map), collecting
all issues in push order; succeed with the assembled object only when no issue
was pushed. -/
def DateObject.fromRaw (value : DateObjectRaw) : Result DateObject :=
  if fromRawIssues value = [] then
    .success (some ⟨(yearItem value).1, (monthItem value).1, (dayItem value).1,
      (hourItem value).1, (minuteItem value).1, (secondItem value).1,
      (msItem value).1, (tzItem value).1⟩)
  else .failure (fromRawIssues value)

/-- A format regex, seen through its observable behaviour: matching a string
either fails or produces the named capture groups. -/
abbrev DateFormat := String → Option DateObjectRaw

/-- `DateObjectVariable.__parse` (`src/variables/index.ts` lines 55-73): try
each format in order; on the first structural match validate the captured
groups (failure list ⇒ failure, object ⇒ success); when no format matches,
fail with the generic message. -/
def DateObjectVariable.parseStr : List DateFormat → String → Result DateObject
  | [], _ => .failure ["must be in a valid date format."]
  | f :: fs, value =>
    match f value with
    | some groups => DateObject.fromRaw groups
    | none => DateObjectVariable.parseStr fs value

/-! ### Settings resolution (`src/variables/InferValues.ts`) -/

/-- One path segment of a `VariableIssue` key.  The declared type
(`src/variables/VariableIssue.ts`) is `Array<string | number>`: strings for
object keys, numbers for union-alternative indices. -/
inductive PathSeg where
  | str : String → PathSeg
  | num : Nat → PathSeg
deriving DecidableEq

/-- `VariableIssue`: a key path plus the issue messages of one failing leaf. -/
structure VariableIssue where
  key : List PathSeg
  issues : List String
deriving DecidableEq

/-- The flat data object (`src/data/DataObject.ts`):
`{ [key: string]: string | undefined }`.  An absent key and a key stored as
`undefined` both read as `undefined`. -/
abbrev DataObject := List (String × Option String)

/-- `data[k]`. -/
def dataGet (data : DataObject) (k : String) : Option String :=
  match data.find? (fun p => p.1 = k) with
  | some p => p.2
  | none => none

/-- A leaf of the schema: any `Variable`, seen through what `_parseValues`
uses of it — its explicit source name (set via `from`, which the resolver
reads as `subvars.name`) and its `parse` function.  (`Variable.name` itself is
not defined under `src/`; per the spec it is an explicit source-data key
overriding the structural key.) -/
structure LeafVar (α : Type) where
  name : Option String
  parse : Option String → Result α

mutual
/-- A `VariableObject` node: a `Variable` leaf, a nested object, or an ordered
list of alternative objects (`src/variables/VariableObject.ts`). -/
inductive SchemaNode (α : Type) where
  | leaf : LeafVar α → SchemaNode α
  | obj : SchemaObj α → SchemaNode α
  | alts : SchemaAlts α → SchemaNode α

/-- The ordered key/node entries of one `VariableObject` (the order of
`Object.entries`). -/
inductive SchemaObj (α : Type) where
  | nil : SchemaObj α
  | cons : String → SchemaNode α → SchemaObj α → SchemaObj α

/-- The ordered union alternatives of an array node. -/
inductive SchemaAlts (α : Type) where
  | anil : SchemaAlts α
  | acons : SchemaObj α → SchemaAlts α → SchemaAlts α
end

/-- The value tree `parseValues` builds: leaves are unwrapped success values
(possibly `undefined`), objects mirror the schema. -/
inductive ValueTree (α : Type) where
  | leaf : Option α → ValueTree α
  | obj : List (String × ValueTree α) → ValueTree α

mutual
/-- `_parseValues` (InferValues.ts lines 26-69), returning the bindings added
to `results` and the issues pushed, both in traversal order.  A failing leaf
adds no binding; an object entry always binds `{}`-then-filled; an array entry
tries alternatives in order (`goAlts`). -/
def goObj {α : Type} : SchemaObj α → DataObject → List PathSeg →
    List (String × ValueTree α) × List VariableIssue
  | .nil, _, _ => ([], [])
  | .cons key (.leaf v) rest, data, parent =>
    let value := dataGet data (v.name.getD key)
    let r := goObj rest data parent
    match v.parse value with
    | .success x => ((key, .leaf x) :: r.1, r.2)
    | .failure errs => (r.1, ⟨parent ++ [.str key], errs⟩ :: r.2)
  | .cons key (.obj sub) rest, data, parent =>
    let s := goObj sub data (parent ++ [.str key])
    let r := goObj rest data parent
    ((key, .obj s.1) :: r.1, s.2 ++ r.2)
  | .cons key (.alts as) rest, data, parent =>
    let a := goAlts as data (parent ++ [.str key]) 0
    let r := goObj rest data parent
    match a.1 with
    | some sub => ((key, .obj sub) :: r.1, r.2)
    | none => (r.1, a.2 ++ r.2)

/-- The `Array` branch of `_parseValues` (lines 40-62): recurse into each
alternative with the path extended by `i.toString()` (the numeric index
rendered as a string); the first alternative with zero issues is accepted and
clears the accumulated `arrayissues`; otherwise every alternative's issues
accumulate in order. -/
def goAlts {α : Type} : SchemaAlts α → DataObject → List PathSeg → Nat →
    Option (List (String × ValueTree α)) × List VariableIssue
  | .anil, _, _, _ => (none, [])
  | .acons alt rest, data, parentKey, i =>
    let s := goObj alt data (parentKey ++ [.str (toString i)])
    if s.2 = [] then (some s.1, [])
    else
      match goAlts rest data parentKey (i + 1) with
      | (some rs, _) => (some rs, [])
      | (none, acc) => (none, s.2 ++ acc)
end

/-- `parseValues` on a `VariableObject` schema (InferValues.ts lines 96-106):
run the walk; return the value tree when no issue was collected, otherwise
throw a `VariableError` carrying all issues (modelled as `Except.error`). -/
def parseValuesObj {α : Type} (vars : SchemaObj α) (data : DataObject) :
    Except (List VariableIssue) (List (String × ValueTree α)) :=
  let r := goObj vars data []
  if r.2 = [] then .ok r.1 else .error r.2

mutual
/-- Schemas free of union-alternative (array) nodes. -/
def unionFreeNode {α : Type} : SchemaNode α → Bool
  | .leaf _ => true
  | .obj o => unionFreeObj o
  | .alts _ => false

/-- `unionFreeNode` over every entry of an object. -/
def unionFreeObj {α : Type} : SchemaObj α → Bool
  | .nil => true
  | .cons _ n rest => unionFreeNode n && unionFreeObj rest
end

mutual
/-- Claim-side description of the thrown issue list (union-free schemas): one
`VariableIssue` per failing leaf, carrying that leaf's full key path from the
schema root, in walk order. -/
def failingLeafIssues {α : Type} : SchemaObj α → DataObject → List PathSeg →
    List VariableIssue
  | .nil, _, _ => []
  | .cons key n rest, data, parent =>
    failingLeafIssuesNode n data parent key ++ failingLeafIssues rest data parent

/-- Per-node part of `failingLeafIssues` (array nodes are out of its
union-free scope and contribute nothing). -/
def failingLeafIssuesNode {α : Type} : SchemaNode α → DataObject →
    List PathSeg → String → List VariableIssue
  | .leaf v, data, parent, key =>
    match v.parse (dataGet data (v.name.getD key)) with
    | .success _ => []
    | .failure errs => [⟨parent ++ [.str key], errs⟩]
  | .obj sub, data, parent, key => failingLeafIssues sub data (parent ++ [.str key])
  | .alts _, _, _, _ => []
end

/-- The keys of a schema object, in entry order. -/
def schemaKeys {α : Type} : SchemaObj α → List String
  | .nil => []
  | .cons k _ rest => k :: schemaKeys rest

/-! ## Theorems for the specification claims -/

/-- JS truthiness of a string: nonempty is truthy. -/
def strTruthy : String → Bool := fun s => s ≠ ""

/-- JS truthiness of a number: nonzero is truthy. -/
def intTruthy : Int → Bool := fun n => n ≠ 0

/-- A `Variable` constructed as `new Variable({ optional: true, default: 0 })`
(also reachable as `a.optional().else(b.defaultTo(0))`): both `#optional` and a
`#default` are set. -/
def bothSetVariable : Variable Int :=
  .base ⟨true, some 0, fun _ => .failure ["must never exist"]⟩

/-- C1 counterexample: on a `Variable` whose `#optional` is set *and* whose
`#default` is set, `parse(undefined)` succeeds with `undefined`, not with the
default — the claim's "succeeds with the default if one is set" fails, because
`Variable.parse` checks `#optional` before `#default`. -/
theorem C1_default_priority_counterexample :
    bothSetVariable.defaultVal = some 0 ∧
    bothSetVariable.parse none = Result.success none ∧
    bothSetVariable.parse none ≠ Result.success (some 0) := by
  refine ⟨rfl, rfl, ?_⟩
  decide

/-- C1 (amended): a present input string (including `""`) is always delegated
to the subclass `__parse` routine and never takes the required-failure path;
an absent input succeeds with `undefined` if the variable is optional,
otherwise succeeds with the default if one is set, otherwise fails with
exactly `["is required"]`. -/
theorem C1_parse_contract {α : Type} (v : Variable α) (s : String) :
    v.parse (some s) = v.parseStr s ∧
    (v.isOptional = true → v.parse none = .success none) ∧
    (v.isOptional = false → ∀ d, v.defaultVal = some d → v.parse none = .success (some d)) ∧
    (v.isOptional = false → v.defaultVal = none → v.parse none = .failure ["is required"]) := by
  refine ⟨rfl, ?_, ?_, ?_⟩
  · intro h
    simp [Variable.parse, absentParse, h]
  · intro h d hd
    simp [Variable.parse, absentParse, h, hd]
  · intro h hd
    simp [Variable.parse, absentParse, h, hd]

/-- C1 witness: a required, default-free `IntegerVariable`-like variable fails
with exactly `["is required"]` on an absent input, and delegates `""` to its
`__parse`. -/
theorem C1_parse_contract_witness :
    (Variable.base ⟨false, (none : Option Int), fun _ => .failure ["must be an integer"]⟩).parse
        none = .failure ["is required"] ∧
    (Variable.base ⟨false, (none : Option Int), fun _ => .failure ["must be an integer"]⟩).parse
        (some "") = .failure ["must be an integer"] :=
  ⟨(C1_parse_contract (Variable.base ⟨false, (none : Option Int),
      fun _ => .failure ["must be an integer"]⟩) "").2.2.2 rfl rfl,
   (C1_parse_contract (Variable.base ⟨false, (none : Option Int),
      fun _ => .failure ["must be an integer"]⟩) "").1⟩

/-- A plain variable that parses any present input to `"A"`. -/
def varA : Variable String := .base ⟨false, none, fun _ => .success (some "A")⟩

/-- A plain variable that parses any present input to `"B"`. -/
def varB : Variable String := .base ⟨false, none, fun _ => .success (some "B")⟩

/-- A plain variable that fails any present input with `["from a"]`. -/
def varAFail : Variable String := .base ⟨false, none, fun _ => .failure ["from a"]⟩

/-- A plain variable that fails any present input with `["from b"]`. -/
def varBFail : Variable String := .base ⟨false, none, fun _ => .failure ["from b"]⟩

/-- C4: evaluating the code at the failing input.  `a.else(b)` with a
non-aggregate `a` never adds `a` to the member list (the `AggregateVariable`
constructor splices `from` only when it is itself an aggregate, and has no
branch pushing a plain `from`), so for an input both members parse, the union
returns `b`'s result instead of `a`'s, and when both fail the issue list holds
only `b`'s messages instead of the concatenation of `a`'s and `b`'s. -/
theorem C4_left_member_dropped :
    (Variable.elseVar strTruthy varA varB).parse (some "x") = .success (some "B") ∧
    varA.parse (some "x") = .success (some "A") ∧
    (Variable.elseVar strTruthy varAFail varBFail).parse (some "x") = .failure ["from b"] ∧
    varAFail.parse (some "x") = .failure ["from a"] :=
  ⟨rfl, rfl, rfl, rfl⟩

/-- A validator that rejects every input with one message. -/
def alwaysFailValidator : StringValidator := fun _ => .failure ["first validator fails"]

/-- A validator that accepts every input unchanged. -/
def alwaysPassValidator : StringValidator := fun s => .success (some s)

/-- C5 counterexample: with validators `[fail, pass]` the parse *succeeds*
(the loop returns the first success), although the first validator fails — so
success does not require all validators to pass, refuting the conjunction
semantics of the claim. -/
theorem C5_conjunction_counterexample :
    StringVariable.parseStr [alwaysFailValidator, alwaysPassValidator] "x" =
      .success (some "x") ∧
    alwaysFailValidator "x" = .failure ["first validator fails"] :=
  ⟨rfl, rfl⟩

/-- Concatenation of every validator's failure messages, in order. -/
def allValidatorErrors (vs : List StringValidator) (v : String) : List String :=
  (vs.map (fun g => (g v).errorOf)).flatten

/-- `validatorLoop` with a prefix of failing validators accumulates exactly
their messages before the first success. -/
theorem validatorLoop_first_success (pre : List StringValidator)
    (f : StringValidator) (post : List StringValidator) (v : String) (r : Option String)
    (acc : List String) (hpre : ∀ g ∈ pre, (g v).isSuccess = false)
    (hf : f v = .success r) :
    validatorLoop (pre ++ f :: post) v acc = .success r := by
  induction pre generalizing acc with
  | nil => simp [validatorLoop, hf]
  | cons g gs ih =>
    have hg := hpre g (by simp)
    cases hgy : g v with
    | success _ => rw [hgy] at hg; simp [Result.isSuccess] at hg
    | failure errs =>
      simp only [List.cons_append, validatorLoop, hgy]
      exact ih _ (fun g1 hg1 => hpre g1 (List.mem_cons_of_mem _ hg1))

/-- `validatorLoop` over all-failing validators fails with the accumulator
followed by every validator's messages, in order. -/
theorem validatorLoop_all_fail (vs : List StringValidator) (v : String)
    (acc : List String) (h : ∀ g ∈ vs, (g v).isSuccess = false) :
    validatorLoop vs v acc = .failure (acc ++ allValidatorErrors vs v) := by
  induction vs generalizing acc with
  | nil => simp [validatorLoop, allValidatorErrors]
  | cons g gs ih =>
    have hg := h g (by simp)
    cases hgy : g v with
    | success _ => rw [hgy] at hg; simp [Result.isSuccess] at hg
    | failure errs =>
      simp only [validatorLoop, hgy]
      rw [ih _ (fun g1 hg1 => h g1 (List.mem_cons_of_mem _ hg1))]
      simp [allValidatorErrors, hgy, Result.errorOf]

/-- C5 (amended): the validator list is a first-success union, not a
conjunction: validators run in order and the first success is returned (its
own `Result`, later validators unevaluated); only if *every* validator fails
does the parse fail, and then with the concatenation of every validator's
messages in order; an empty list succeeds with the input unchanged. -/
theorem C5_first_success_union :
    (∀ (pre : List StringValidator) (f : StringValidator) (post : List StringValidator)
        (v : String) (r : Option String),
        (∀ g ∈ pre, (g v).isSuccess = false) → f v = .success r →
        StringVariable.parseStr (pre ++ f :: post) v = .success r) ∧
    (∀ (vs : List StringValidator) (v : String), vs ≠ [] →
        (∀ g ∈ vs, (g v).isSuccess = false) →
        StringVariable.parseStr vs v = .failure (allValidatorErrors vs v)) ∧
    (∀ v : String, StringVariable.parseStr [] v = .success (some v)) := by
  refine ⟨?_, ?_, fun v => rfl⟩
  · intro pre f post v r hpre hf
    have hlen : (pre ++ f :: post).length ≠ 0 := by simp
    simp only [StringVariable.parseStr, hlen, if_true, ne_eq, not_false_iff, if_pos]
    exact validatorLoop_first_success pre f post v r [] hpre hf
  · intro vs v hne h
    have hlen : vs.length ≠ 0 := by
      cases vs with
      | nil => exact absurd rfl hne
      | cons a as => simp
    simp only [StringVariable.parseStr, hlen, if_true, ne_eq, not_false_iff, if_pos]
    simpa using validatorLoop_all_fail vs v [] h

/-- C5 witness: two failing validators produce the concatenated message list;
a fail-then-pass list returns the pass result. -/
theorem C5_first_success_union_witness :
    StringVariable.parseStr [fun _ => .failure ["m1"], fun _ => .failure ["m2"]] "x" =
      .failure ["m1", "m2"] ∧
    StringVariable.parseStr [alwaysFailValidator, alwaysPassValidator] "q" =
      .success (some "q") :=
  ⟨C5_first_success_union.2.1 [fun _ => .failure ["m1"], fun _ => .failure ["m2"]] "x"
      (by simp)
      (by
        intro g hg
        simp only [List.mem_cons, List.not_mem_nil, or_false] at hg
        rcases hg with rfl | rfl <;> rfl),
   C5_first_success_union.1 [alwaysFailValidator] alwaysPassValidator [] "q" (some "q")
      (by
        intro g hg
        simp only [List.mem_cons, List.not_mem_nil, or_false] at hg
        rcases hg with rfl
        rfl) rfl⟩

/-- C6: a present input is parsed by the wrapped source variable — a failure
is propagated untouched (the transformer is never applied to errors) and a
success's value is fed to the transformer, whose `Result` is returned; an
absent input on an optional-or-defaulted transformed variable bypasses the
transformer entirely and runs the base class's optional/default/required
logic. -/
theorem C6_transform_propagation {α β : Type} (t : TransformedVariable α β) :
    (∀ (s : String) (errs : List String),
        t.src.parse (some s) = .failure errs → t.parse (some s) = .failure errs) ∧
    (∀ (s : String) (x : Option α),
        t.src.parse (some s) = .success x → t.parse (some s) = t.transformFn x) ∧
    ((t.optional = true ∨ t.default.isSome = true) →
        t.parse none = absentParse t.optional t.default) := by
  refine ⟨?_, ?_, ?_⟩
  · intro s errs h
    simp [TransformedVariable.parse, h]
  · intro s x h
    simp [TransformedVariable.parse, h]
  · intro h
    have hcond : t.optional || t.default.isSome := by
      rcases h with h | h <;> simp [h]
    simp [TransformedVariable.parse, hcond]

/-- C6 witness: a concrete transformed variable propagates its source's
failure untouched, transforms its source's success, and uses the base logic
(default) on an absent input. -/
theorem C6_transform_propagation_witness :
    (TransformedVariable.mk false none varAFail (fun _ => .success (some 1)) :
        TransformedVariable String Int).parse (some "x") = .failure ["from a"] ∧
    (TransformedVariable.mk false none varA (fun _ => .success (some 1)) :
        TransformedVariable String Int).parse (some "x") = .success (some 1) ∧
    (TransformedVariable.mk false (some 9) varA (fun _ => .success (some 1)) :
        TransformedVariable String Int).parse none = .success (some 9) :=
  ⟨(C6_transform_propagation (TransformedVariable.mk false none varAFail
        (fun _ => .success (some 1)))).1 "x" ["from a"] rfl,
   (C6_transform_propagation (TransformedVariable.mk false none varA
        (fun _ => .success (some 1)))).2.1 "x" (some "A") rfl,
   (C6_transform_propagation (TransformedVariable.mk false (some 9) varA
        (fun _ => .success (some 1)))).2.2 (Or.inr rfl)⟩

/-- C10: the union `a.else(b)` is optional exactly when either member is, its
default is `a`'s default when that is truthy and `b`'s otherwise (a falsy
default is not inherited from `a`), and an absent input on an
either-member-optional union succeeds with `undefined` — it never takes the
required-failure path. -/
theorem C10_else_optional_default {α : Type} (tr : α → Bool) (a b : Variable α) :
    (Variable.elseVar tr a b).isOptional = (a.isOptional || b.isOptional) ∧
    (truthyOpt tr a.defaultVal = true →
        (Variable.elseVar tr a b).defaultVal = a.defaultVal) ∧
    (truthyOpt tr a.defaultVal = false →
        (Variable.elseVar tr a b).defaultVal = b.defaultVal) ∧
    ((a.isOptional = true ∨ b.isOptional = true) →
        (Variable.elseVar tr a b).parse none = .success none) := by
  refine ⟨rfl, ?_, ?_, ?_⟩
  · intro h
    show jsOr tr a.defaultVal b.defaultVal = a.defaultVal
    simp [jsOr, h]
  · intro h
    show jsOr tr a.defaultVal b.defaultVal = b.defaultVal
    simp [jsOr, h]
  · intro h
    have hopt : (Variable.elseVar tr a b).isOptional = true := by
      show (a.isOptional || b.isOptional) = true
      rcases h with h | h <;> simp [h]
    simp [Variable.parse, absentParse, hopt]

/-- A required variable with the falsy default `0`. -/
def varZeroDefault : Variable Int := .base ⟨false, some 0, fun _ => .failure ["z"]⟩

/-- An optional variable with default `7` cleared to model
`defaultTo(7)`-then-`optional()` siblings; used as the right member. -/
def varSevenDefault : Variable Int := .base ⟨true, some 7, fun _ => .failure ["s"]⟩

/-- C10 witness: with `a`'s default the falsy `0`, the union takes `b`'s
default `7`; the union of a required and an optional member is optional and
parses an absent input to `undefined`. -/
theorem C10_else_optional_default_witness :
    (Variable.elseVar intTruthy varZeroDefault varSevenDefault).defaultVal = some 7 ∧
    (Variable.elseVar intTruthy varZeroDefault varSevenDefault).isOptional = true ∧
    (Variable.elseVar intTruthy varZeroDefault varSevenDefault).parse none =
      .success none :=
  ⟨(C10_else_optional_default intTruthy varZeroDefault varSevenDefault).2.2.1 rfl,
   (C10_else_optional_default intTruthy varZeroDefault varSevenDefault).1,
   (C10_else_optional_default intTruthy varZeroDefault varSevenDefault).2.2.2
      (Or.inr rfl)⟩

/-- A required, default-free string leaf: present input succeeds with the
input, absent input fails with `["is required"]` (the behaviour of
`v.string()` with no validators, through `Variable.parse`). -/
def requiredStringLeaf : LeafVar String :=
  ⟨none, (Variable.base ⟨false, none, fun s => .success (some s)⟩).parse⟩

/-- The schema `{ a: [{ b: string }, { c: string }] }`: one union node with
two single-leaf alternatives. -/
def unionSchema : SchemaObj String :=
  .cons "a"
    (.alts (.acons (.cons "b" (.leaf requiredStringLeaf) .nil)
      (.acons (.cons "c" (.leaf requiredStringLeaf) .nil) .anil)))
    .nil

/-- C3: evaluating the code where every union alternative fails.  The issues
are the concatenation of both alternatives' issues in order, each prefixed
with its alternative's index — but the index segment is the *string* `"0"` /
`"1"` (the source pushes `i.toString()`), not the integer the
`VariableIssue` data model declares for union-alternative indices. -/
theorem C3_union_alternative_index_is_string :
    parseValuesObj unionSchema [] =
      .error [⟨[.str "a", .str "0", .str "b"], ["is required"]⟩,
              ⟨[.str "a", .str "1", .str "c"], ["is required"]⟩] := rfl

/-- C2 counterexample: in the schema `{ a: [{ b }, { c }] }` with data
holding only `c`, the leaf `b` *fails* (first alternative rejected), yet
`parseValues` returns a value tree instead of throwing — the first accepted
alternative discards the failed alternative's leaf issues, refuting "if at
least one leaf fails it throws". -/
theorem C2_union_discards_failing_leaf :
    (requiredStringLeaf.parse (dataGet [("c", some "v")] "b")).isSuccess = false ∧
    parseValuesObj unionSchema [("c", some "v")] =
      .ok [("a", .obj [("c", .leaf (some "v"))])] :=
  ⟨rfl, rfl⟩

/-- On union-free schemas the walk's issue list is exactly one
`VariableIssue` per failing leaf, with that leaf's full key path, in walk
order (no short-circuit on a failure). -/
theorem goObj_issues_unionFree {α : Type} :
    ∀ (vars : SchemaObj α) (data : DataObject) (parent : List PathSeg),
      unionFreeObj vars = true →
      (goObj vars data parent).2 = failingLeafIssues vars data parent
  | .nil, _, _, _ => rfl
  | .cons key (.leaf v) rest, data, parent, h => by
    have hrest : unionFreeObj rest = true := by
      simp [unionFreeObj, unionFreeNode] at h
      exact h
    have ih := goObj_issues_unionFree rest data parent hrest
    cases hv : v.parse (dataGet data (v.name.getD key)) with
    | success x => simp [goObj, failingLeafIssues, failingLeafIssuesNode, hv, ih]
    | failure errs => simp [goObj, failingLeafIssues, failingLeafIssuesNode, hv, ih]
  | .cons key (.obj sub) rest, data, parent, h => by
    have hsub : unionFreeObj sub = true := by
      simp [unionFreeObj, unionFreeNode] at h
      exact h.1
    have hrest : unionFreeObj rest = true := by
      simp [unionFreeObj, unionFreeNode] at h
      exact h.2
    have ih1 := goObj_issues_unionFree sub data (parent ++ [.str key]) hsub
    have ih2 := goObj_issues_unionFree rest data parent hrest
    simp [goObj, failingLeafIssues, failingLeafIssuesNode, ih1, ih2]
  | .cons key (.alts as) rest, data, parent, h => by
    simp [unionFreeObj, unionFreeNode] at h

/-- When the walk collects no issue, the result tree binds every key of the
schema, in order — the returned object is never partial. -/
theorem goObj_keys_complete {α : Type} :
    ∀ (vars : SchemaObj α) (data : DataObject) (parent : List PathSeg),
      unionFreeObj vars = true → (goObj vars data parent).2 = [] →
      (goObj vars data parent).1.map Prod.fst = schemaKeys vars
  | .nil, _, _, _, _ => rfl
  | .cons key (.leaf v) rest, data, parent, h, hiss => by
    have hrest : unionFreeObj rest = true := by
      simp [unionFreeObj, unionFreeNode] at h
      exact h
    cases hv : v.parse (dataGet data (v.name.getD key)) with
    | success x =>
      have hiss2 : (goObj rest data parent).2 = [] := by
        simp [goObj, hv] at hiss
        exact hiss
      have ih := goObj_keys_complete rest data parent hrest hiss2
      simp [goObj, hv, schemaKeys, ih]
    | failure errs => simp [goObj, hv] at hiss
  | .cons key (.obj sub) rest, data, parent, h, hiss => by
    have hrest : unionFreeObj rest = true := by
      simp [unionFreeObj, unionFreeNode] at h
      exact h.2
    have hiss2 : (goObj rest data parent).2 = [] := by
      simp [goObj] at hiss
      exact hiss.2
    have ih := goObj_keys_complete rest data parent hrest hiss2
    simp [goObj, schemaKeys, ih]
  | .cons key (.alts as) rest, data, parent, h, _ => by
    simp [unionFreeObj, unionFreeNode] at h

/-- C2 (amended): on a schema without union-alternative nodes, `parseValues`
evaluates every leaf with no short-circuit on a failure — it throws exactly
when some leaf fails, carrying one `VariableIssue` per failing leaf with that
leaf's full key path in walk order, and otherwise returns the walked value
tree binding every schema key (never a partial object).  (On union nodes the
source accepts the first zero-issue alternative and *discards* the issues of
rejected alternatives, so a failing leaf inside a rejected alternative does
not make the operation throw — see the counterexample.) -/
theorem C2_all_or_nothing {α : Type} (vars : SchemaObj α) (data : DataObject)
    (h : unionFreeObj vars = true) :
    (failingLeafIssues vars data [] = [] →
      parseValuesObj vars data = .ok (goObj vars data []).1 ∧
      (goObj vars data []).1.map Prod.fst = schemaKeys vars) ∧
    (failingLeafIssues vars data [] ≠ [] →
      parseValuesObj vars data = .error (failingLeafIssues vars data [])) := by
  have hiss := goObj_issues_unionFree vars data [] h
  constructor
  · intro hnil
    have hz : (goObj vars data []).2 = [] := hiss.trans hnil
    refine ⟨?_, goObj_keys_complete vars data [] h hz⟩
    simp [parseValuesObj, hz]
  · intro hne
    have hz : (goObj vars data []).2 ≠ [] := by
      rw [hiss]
      exact hne
    simp [parseValuesObj, hiss, hz]
    exact hne

/-- The union-free schema `{ a: string, b: { c: string } }`. -/
def nestedSchema : SchemaObj String :=
  .cons "a" (.leaf requiredStringLeaf)
    (.cons "b" (.obj (.cons "c" (.leaf requiredStringLeaf) .nil)) .nil)

/-- C2 witness: with `c` missing the operation throws carrying the one
failing leaf's full path `["b", "c"]`; with full data it returns the complete
two-key tree. -/
theorem C2_all_or_nothing_witness :
    parseValuesObj nestedSchema [("a", some "1")] =
      .error [⟨[.str "b", .str "c"], ["is required"]⟩] ∧
    parseValuesObj nestedSchema [("a", some "1"), ("c", some "2")] =
      .ok [("a", .leaf (some "1")), ("b", .obj [("c", .leaf (some "2"))])] :=
  ⟨((C2_all_or_nothing nestedSchema [("a", some "1")] rfl).2 (by decide)).trans rfl,
   ((C2_all_or_nothing nestedSchema [("a", some "1"), ("c", some "2")] rfl).1 rfl).1.trans rfl⟩

/-- The observable state of the `AggregateVariable` that `else` creates over
string variables (its fresh member array lives outside the validator store;
the constructor only reads its operands). -/
structure AggregateState where
  optional : Bool
  default : Option String

/-- `v.else(w)` on string variables: reads `isOptional`/`default` of both
operands, writes nothing into the validator store. -/
def elseStringVariable (h : ValidatorHeap) (v w : StringVariableRef) :
    ValidatorHeap × AggregateState :=
  (h, ⟨v.optional || w.optional, jsOr strTruthy v.default w.default⟩)

/-- Reading a valid cell is unchanged by allocating a new cell. -/
theorem heapGet_alloc (h : ValidatorHeap) (xs : List StringValidator) (r : Nat)
    (hr : r < h.length) : heapGet (h ++ [xs]) r = heapGet h r :=
  List.getD_append h [xs] [] r hr

/-- Reading the freshly allocated cell. -/
theorem heapGet_alloc_self (h : ValidatorHeap) (xs : List StringValidator) :
    heapGet (h ++ [xs]) h.length = xs := by
  simp [heapGet, List.getD_append_right]

/-- Writing one cell does not change another. -/
theorem heapGet_set_ne (h : ValidatorHeap) (r n : Nat)
    (xs : List StringValidator) (hrn : r ≠ n) :
    heapGet (h.set n xs) r = heapGet h r := by
  simp [heapGet, List.getD, List.getElem?_set_ne (Ne.symm hrn)]

/-- Reading back a written cell. -/
theorem heapGet_set_self (h : ValidatorHeap) (n : Nat)
    (xs : List StringValidator) (hn : n < h.length) :
    heapGet (h.set n xs) n = xs := by
  simp [heapGet, List.getD, List.getElem?_set_eq_of_lt xs hn]

/-- C7: `optional()`, `defaultTo(x)`, `validate(f)` and `else(w)` never alter
the receiver's observable state: each clone deep-copies the validator array
(`[...from.#validators]`), so the push performed by `validate` lands on the
clone's own fresh array and the original's array reads back unchanged; the
returned instance holds a distinct array reference; `optional` sets
optional/clears default and `defaultTo` sets the default on the clone only;
`else` writes nothing into the store. -/
theorem C7_immutability (h : ValidatorHeap) (v : StringVariableRef)
    (f : StringValidator) (x : String) (hv : v.validatorsRef < h.length) :
    (heapGet (validateStringVariable h v f).1 v.validatorsRef =
        heapGet h v.validatorsRef ∧
      (validateStringVariable h v f).2.validatorsRef ≠ v.validatorsRef ∧
      heapGet (validateStringVariable h v f).1
          (validateStringVariable h v f).2.validatorsRef =
        heapGet h v.validatorsRef ++ [f]) ∧
    ((optionalStringVariable h v).2.optional = true ∧
      (optionalStringVariable h v).2.default = none ∧
      heapGet (optionalStringVariable h v).1 v.validatorsRef =
        heapGet h v.validatorsRef ∧
      (optionalStringVariable h v).2.validatorsRef ≠ v.validatorsRef) ∧
    ((defaultToStringVariable h v x).2.optional = false ∧
      (defaultToStringVariable h v x).2.default = some x ∧
      heapGet (defaultToStringVariable h v x).1 v.validatorsRef =
        heapGet h v.validatorsRef ∧
      (defaultToStringVariable h v x).2.validatorsRef ≠ v.validatorsRef) ∧
    (∀ w : StringVariableRef, (elseStringVariable h v w).1 = h ∧
      (elseStringVariable h v w).2.optional = (v.optional || w.optional) ∧
      (elseStringVariable h v w).2.default =
        jsOr strTruthy v.default w.default) := by
  have hne : v.validatorsRef ≠ h.length := Nat.ne_of_lt hv
  refine ⟨⟨?_, ?_, ?_⟩, ⟨rfl, rfl, ?_, ?_⟩, ⟨rfl, rfl, ?_, ?_⟩, fun w => ⟨rfl, rfl, rfl⟩⟩
  · show heapGet ((h ++ [heapGet h v.validatorsRef]).set h.length _) v.validatorsRef = _
    rw [heapGet_set_ne _ _ _ _ hne, heapGet_alloc _ _ _ hv]
  · exact Ne.symm hne
  · show heapGet ((h ++ [heapGet h v.validatorsRef]).set h.length
      (heapGet (h ++ [heapGet h v.validatorsRef]) h.length ++ [f])) h.length = _
    rw [heapGet_set_self _ _ _ (by simp), heapGet_alloc_self]
  · exact heapGet_alloc _ _ _ hv
  · exact Ne.symm hne
  · exact heapGet_alloc _ _ _ hv
  · exact Ne.symm hne

/-- C7 witness: starting from a one-cell store, `validate` leaves the
original's array unchanged, returns a distinct reference whose array is the
copy plus the new validator, and `optional()` flips only the clone. -/
theorem C7_immutability_witness :
    heapGet (validateStringVariable [[alwaysPassValidator]] ⟨false, none, 0⟩
        alwaysFailValidator).1 0 = heapGet [[alwaysPassValidator]] 0 ∧
    (validateStringVariable [[alwaysPassValidator]] ⟨false, none, 0⟩
        alwaysFailValidator).2.validatorsRef ≠ 0 ∧
    heapGet (validateStringVariable [[alwaysPassValidator]] ⟨false, none, 0⟩
          alwaysFailValidator).1
        (validateStringVariable [[alwaysPassValidator]] ⟨false, none, 0⟩
          alwaysFailValidator).2.validatorsRef =
      heapGet [[alwaysPassValidator]] 0 ++ [alwaysFailValidator] ∧
    (optionalStringVariable [[alwaysPassValidator]] ⟨false, none, 0⟩).2.optional = true :=
  ⟨(C7_immutability [[alwaysPassValidator]] ⟨false, none, 0⟩ alwaysFailValidator "d"
      (by decide)).1.1,
   (C7_immutability [[alwaysPassValidator]] ⟨false, none, 0⟩ alwaysFailValidator "d"
      (by decide)).1.2.1,
   (C7_immutability [[alwaysPassValidator]] ⟨false, none, 0⟩ alwaysFailValidator "d"
      (by decide)).1.2.2,
   (C7_immutability [[alwaysPassValidator]] ⟨false, none, 0⟩ alwaysFailValidator "d"
      (by decide)).2.1.1⟩

/-- C8: integer parsing accepts decimal, `0b` binary and `0x` hex literal
forms (`"123"` ↦ 123, `"0b1101"` ↦ 13, `"0x1A"` ↦ 26) and rejects fractional
input; `min(x)`/`max(x)` store `ceil(x)`/`floor(x)` at configuration time;
a matched integer within the configured bounds succeeds, and one outside them
fails with the combined or one-sided bound message (concretely
`"must be between 5 and 10"` for bounds 5/10). -/
theorem C8_integer_literals_and_bounds :
    IntegerVariable.parseStr {} "123" = .success (some 123) ∧
    IntegerVariable.parseStr {} "0b1101" = .success (some 13) ∧
    IntegerVariable.parseStr {} "0x1A" = .success (some 26) ∧
    IntegerVariable.parseStr {} "12.34" = .failure ["must be an integer"] ∧
    (∀ (v : IntegerVariable) (q : ℚ),
      (v.setMin q).min = some ⌈q⌉ ∧ (v.setMax q).max = some ⌊q⌋) ∧
    (∀ (v : IntegerVariable) (s : String) (n : Nat), integerMatch s = some n →
      (((∀ m ∈ v.min, m ≤ (n : Int)) ∧ (∀ M ∈ v.max, (n : Int) ≤ M)) →
        v.parseStr s = .success (some (n : Int))) ∧
      (((∃ m ∈ v.min, (n : Int) < m) ∨ (∃ M ∈ v.max, M < (n : Int))) →
        v.parseStr s = .failure [v.rangeError])) ∧
    IntegerVariable.parseStr { min := some 5, max := some 10 } "7" =
      .success (some 7) ∧
    IntegerVariable.parseStr { min := some 5, max := some 10 } "4" =
      .failure ["must be between 5 and 10"] ∧
    IntegerVariable.parseStr { min := some 5, max := some 10 } "11" =
      .failure ["must be between 5 and 10"] := by
  refine ⟨by decide, by decide, by decide, by decide, fun v q => ⟨rfl, rfl⟩,
    ?_, by decide, by decide, by decide⟩
  intro v s n hm
  constructor
  · intro hin
    have hminOk : (match v.min with
        | some m => decide (m ≤ (n : Int)) | none => true) = true := by
      cases hmin : v.min with
      | none => rfl
      | some m =>
        simpa using hin.1 m (by simp [hmin])
    have hmaxOk : (match v.max with
        | some M => decide ((n : Int) ≤ M) | none => true) = true := by
      cases hmax : v.max with
      | none => rfl
      | some M =>
        simpa using hin.2 M (by simp [hmax])
    simp [IntegerVariable.parseStr, hm, hminOk, hmaxOk]
  · intro hout
    have hbad : ((match v.min with
        | some m => decide (m ≤ (n : Int)) | none => true) &&
        (match v.max with
        | some M => decide ((n : Int) ≤ M) | none => true)) = false := by
      rcases hout with ⟨m, hmem, hlt⟩ | ⟨M, hmem, hlt⟩
      · cases hmin : v.min with
        | none => rw [hmin] at hmem; cases hmem
        | some m1 =>
          rw [hmin] at hmem
          have : m1 = m := by simpa using hmem
          subst this
          simp [Bool.and_eq_false_iff, not_le.mpr hlt]
      · cases hmax : v.max with
        | none => rw [hmax] at hmem; cases hmem
        | some M1 =>
          rw [hmax] at hmem
          have : M1 = M := by simpa using hmem
          subst this
          simp [Bool.and_eq_false_iff, not_le.mpr hlt]
    simp only [IntegerVariable.parseStr, hm]
    rw [if_neg]
    simp [hbad]

/-- C8 witness: `min(11/2)` stores `6`; a variable bounded 5‥10 accepts
`"0b111"` (7) and rejects `"0x1A"` (26) with the combined message. -/
theorem C8_integer_literals_and_bounds_witness :
    (({} : IntegerVariable).setMin ((11 : ℚ)/2)).min = some 6 ∧
    IntegerVariable.parseStr { min := some 5, max := some 10 } "0b111" =
      .success (some 7) ∧
    IntegerVariable.parseStr { min := some 5, max := some 10 } "0x1A" =
      .failure [IntegerVariable.rangeError { min := some 5, max := some 10 }] :=
  ⟨((C8_integer_literals_and_bounds.2.2.2.2.1 {} ((11 : ℚ)/2)).1).trans
      (by rw [Option.some_inj, Int.ceil_eq_iff]; norm_num),
   (C8_integer_literals_and_bounds.2.2.2.2.2.1
      { min := some 5, max := some 10 } "0b111" 7 (by decide)).1
      (by constructor <;> (intro z hz; simp_all; omega)),
   (C8_integer_literals_and_bounds.2.2.2.2.2.1
      { min := some 5, max := some 10 } "0x1A" 26 (by decide)).2
      (Or.inr ⟨10, by simp, by norm_num⟩)⟩

/-- A `validateItem` call with no `max` that pushes no issue returns a
component at least `min`, provided the default is. -/
theorem validateItem_ok_none (name : String) (value : Option RawVal)
    (defaultTo min : Int) (hd1 : min ≤ defaultTo)
    (h : (validateItem name value defaultTo min none).2 = []) :
    min ≤ (validateItem name value defaultTo min none).1 := by
  unfold validateItem at h ⊢
  rcases value with _ | (s | nv)
  · simp only [ite_self]
    exact hd1
  · cases hp : jsParseInt s with
    | none => simp [hp] at h
    | some v =>
      simp only [hp] at h ⊢
      split at h
      · simp at h
      · next hcond =>
        simp only [Bool.or_false, decide_eq_true_eq] at hcond
        split
        · exact hd1
        · exact le_of_not_lt hcond
  · simp only at h ⊢
    split at h
    · simp at h
    · next hcond =>
      simp only [Bool.or_false, decide_eq_true_eq] at hcond
      split
      · exact hd1
      · exact le_of_not_lt hcond

/-- A `validateItem` call with a `max` that pushes no issue returns a
component within `[min, max]`, provided the default is. -/
theorem validateItem_ok_some (name : String) (value : Option RawVal)
    (defaultTo min M : Int) (hd1 : min ≤ defaultTo) (hd2 : defaultTo ≤ M)
    (h : (validateItem name value defaultTo min (some M)).2 = []) :
    min ≤ (validateItem name value defaultTo min (some M)).1 ∧
      (validateItem name value defaultTo min (some M)).1 ≤ M := by
  unfold validateItem at h ⊢
  rcases value with _ | (s | nv)
  · simp only [ite_self]
    exact ⟨hd1, hd2⟩
  · cases hp : jsParseInt s with
    | none => simp [hp] at h
    | some v =>
      simp only [hp] at h ⊢
      split at h
      · simp at h
      · next hcond =>
        simp only [Bool.or_eq_true, decide_eq_true_eq, not_or] at hcond
        constructor
        · split
          · exact hd1
          · exact le_of_not_lt hcond.1
        · split
          · exact hd2
          · exact le_of_not_lt hcond.2
  · simp only at h ⊢
    split at h
    · simp at h
    · next hcond =>
      simp only [Bool.or_eq_true, decide_eq_true_eq, not_or] at hcond
      constructor
      · split
        · exact hd1
        · exact le_of_not_lt hcond.1
      · split
        · exact hd2
        · exact le_of_not_lt hcond.2

/-- Every month length is at least 28. -/
theorem monthDays_ge (y m : Int) : 28 ≤ monthDays y m := by
  have h2 : 0 ≤ leapYear y := by
    unfold leapYear
    split <;> norm_num
  have h1 : (28 : Int) ≤
      (if 1 ≤ m ∧ m ≤ 12 then regularDays.getD (m - 1).toNat 30 else 30) := by
    split
    · next hm =>
      obtain ⟨hm1, hm2⟩ := hm
      interval_cases m <;> decide
    · norm_num
  unfold monthDays
  omega

/-- A timezone block that pushes no issue accepts an explicit offset only
with hour within ±14, minute within 0‥59, and combined offset within
±14:00. -/
theorem tzCompute_in_range (tzutc : Option String) (tzh tzm : Option RawVal)
    (h : (tzCompute tzutc tzh tzm).2 = []) (hh mm : Int)
    (heq : (tzCompute tzutc tzh tzm).1 = some (.offset hh mm)) :
    -14 ≤ hh ∧ hh ≤ 14 ∧ 0 ≤ mm ∧ mm ≤ 59 ∧
      -1400 ≤ hh * 100 + (if hh < 0 then -mm else mm) ∧
      hh * 100 + (if hh < 0 then -mm else mm) ≤ 1400 := by
  simp only [tzCompute] at h heq
  by_cases ht : truthyRawOpt tzh = true
  · rw [if_pos ht] at h heq
    by_cases hoff : ((validateItem "tzhour" tzh 0 (-14) (some 14)).1 * 100 +
        (if (validateItem "tzhour" tzh 0 (-14) (some 14)).1 < 0 then
          -(validateItem "tzminute" tzm 0 0 (some 59)).1
        else (validateItem "tzminute" tzm 0 0 (some 59)).1) < -1400 ∨
        1400 < (validateItem "tzhour" tzh 0 (-14) (some 14)).1 * 100 +
        (if (validateItem "tzhour" tzh 0 (-14) (some 14)).1 < 0 then
          -(validateItem "tzminute" tzm 0 0 (some 59)).1
        else (validateItem "tzminute" tzm 0 0 (some 59)).1))
    · rw [if_pos hoff] at h
      simp at h
    · rw [if_neg hoff] at h heq
      have heq2 : some (TimeZone.offset (validateItem "tzhour" tzh 0 (-14) (some 14)).1
          (validateItem "tzminute" tzm 0 0 (some 59)).1) =
          some (TimeZone.offset hh mm) := heq
      simp only [Option.some_inj, TimeZone.offset.injEq] at heq2
      obtain ⟨e1, e2⟩ := heq2
      subst e1
      subst e2
      have h2 : ((if (tzZeroMarker tzutc).isSome then
          [".tz can only be Z (UTC) or an offset"] else []) ++
          (validateItem "tzhour" tzh 0 (-14) (some 14)).2 ++
          (validateItem "tzminute" tzm 0 0 (some 59)).2) = [] := h
      have p1 := List.append_eq_nil.mp h2
      have p2 := List.append_eq_nil.mp p1.1
      have hhr := validateItem_ok_some "tzhour" tzh 0 (-14) 14 (by norm_num)
        (by norm_num) p2.2
      have hmr := validateItem_ok_some "tzminute" tzm 0 0 59 (by norm_num)
        (by norm_num) p1.2
      push_neg at hoff
      exact ⟨hhr.1, hhr.2, hmr.1, hmr.2, by omega, by omega⟩
  · rw [if_neg ht] at heq
    have heq2 : tzZeroMarker tzutc = some (.offset hh mm) := heq
    unfold tzZeroMarker at heq2
    split at heq2 <;> simp at heq2

/-- A truthy `Z` marker together with a truthy explicit offset always pushes
the conflict message. -/
theorem tzCompute_conflict (tzh tzm : Option RawVal)
    (h2 : truthyRawOpt tzh = true) :
    ".tz can only be Z (UTC) or an offset" ∈ (tzCompute (some "Z") tzh tzm).2 := by
  have hz : tzZeroMarker (some "Z") = some .z := by decide
  simp only [tzCompute, hz]
  rw [if_pos h2]
  split <;> split <;> simp

/-- A successful `DateObject.from` pushed no issue. -/
theorem fromRaw_success_issues (raw : DateObjectRaw) (x : Option DateObject)
    (h : DateObject.fromRaw raw = .success x) : fromRawIssues raw = [] := by
  unfold DateObject.fromRaw at h
  split at h
  · next hc => exact hc
  · cases h

/-- A failed `DateObject.from` carries exactly the pushed issue list. -/
theorem fromRaw_failure_eq (raw : DateObjectRaw) (is : List String)
    (h : DateObject.fromRaw raw = .failure is) :
    is = fromRawIssues raw ∧ fromRawIssues raw ≠ [] := by
  unfold DateObject.fromRaw at h
  split at h
  · cases h
  · next hc =>
    injection h with h1
    exact ⟨h1.symm, hc⟩

/-- A successful `DateObject.from` has every component inside its declared
range. -/
theorem fromRaw_success_ranges (raw : DateObjectRaw) (d : DateObject)
    (h : DateObject.fromRaw raw = .success (some d)) :
    0 ≤ d.year ∧ 1 ≤ d.month ∧ d.month ≤ 12 ∧ 1 ≤ d.day ∧
      d.day ≤ monthDays d.year d.month ∧ 0 ≤ d.hour ∧ d.hour ≤ 23 ∧
      0 ≤ d.minute ∧ d.minute ≤ 59 ∧ 0 ≤ d.second ∧ d.second ≤ 59 ∧
      0 ≤ d.ms ∧ d.ms ≤ 999 ∧
      (∀ hh mm, d.tz = some (.offset hh mm) →
        -14 ≤ hh ∧ hh ≤ 14 ∧ 0 ≤ mm ∧ mm ≤ 59 ∧
        -1400 ≤ hh * 100 + (if hh < 0 then -mm else mm) ∧
        hh * 100 + (if hh < 0 then -mm else mm) ≤ 1400) := by
  have hiss := fromRaw_success_issues raw _ h
  unfold DateObject.fromRaw at h
  rw [if_pos hiss] at h
  injection h with h1
  injection h1 with h2
  subst h2
  unfold fromRawIssues at hiss
  have p1 := List.append_eq_nil.mp hiss
  have p2 := List.append_eq_nil.mp p1.1
  have p3 := List.append_eq_nil.mp p2.1
  have p4 := List.append_eq_nil.mp p3.1
  have p5 := List.append_eq_nil.mp p4.1
  have p6 := List.append_eq_nil.mp p5.1
  have p7 := List.append_eq_nil.mp p6.1
  have hyear := validateItem_ok_none "year" raw.year 2000 0 (by norm_num) p7.1
  have hmonth := validateItem_ok_some "month" (monthArgOf raw) 1 1 12
    (le_refl 1) (by norm_num) p7.2
  have hday := validateItem_ok_some "day" raw.day 1 1
    (monthDays (yearItem raw).1 (monthItem raw).1) (le_refl 1)
    (by have := monthDays_ge (yearItem raw).1 (monthItem raw).1; omega) p6.2
  have hhour := validateItem_ok_some "hour" raw.hour 0 0 23 (le_refl 0)
    (by norm_num) p5.2
  have hminute := validateItem_ok_some "minute" raw.minute 0 0 59 (le_refl 0)
    (by norm_num) p4.2
  have hsecond := validateItem_ok_some "second" raw.second 0 0 59 (le_refl 0)
    (by norm_num) p3.2
  have hms := validateItem_ok_some "ms" raw.ms 0 0 999 (le_refl 0)
    (by norm_num) p2.2
  refine ⟨hyear, hmonth.1, hmonth.2, hday.1, hday.2, hhour.1, hhour.2,
    hminute.1, hminute.2, hsecond.1, hsecond.2, hms.1, hms.2, ?_⟩
  intro hh mm heq
  exact tzCompute_in_range raw.tzutc raw.tzhour raw.tzminute p1.2 hh mm heq

/-- The first structurally matching format is the one whose captures are
validated. -/
theorem dateParseStr_first_match (fs1 : List DateFormat) (f : DateFormat)
    (fs2 : List DateFormat) (s : String) (g : DateObjectRaw)
    (hpre : ∀ f1 ∈ fs1, f1 s = none) (hf : f s = some g) :
    DateObjectVariable.parseStr (fs1 ++ f :: fs2) s = DateObject.fromRaw g := by
  induction fs1 with
  | nil => simp [DateObjectVariable.parseStr, hf]
  | cons a as ih =>
    have ha := hpre a (by simp)
    simp only [List.cons_append, DateObjectVariable.parseStr, ha]
    exact ih (fun x hx => hpre x (List.mem_cons_of_mem _ hx))

/-- When no format matches, the parse fails with the generic message. -/
theorem dateParseStr_no_match (fs : List DateFormat) (s : String)
    (h : ∀ f ∈ fs, f s = none) :
    DateObjectVariable.parseStr fs s =
      .failure ["must be in a valid date format."] := by
  induction fs with
  | nil => rfl
  | cons a as ih =>
    have ha := h a (by simp)
    simp only [DateObjectVariable.parseStr, ha]
    exact ih (fun x hx => h x (List.mem_cons_of_mem _ hx))

/-- Raw captures with two simultaneous component violations (month 13 and
hour 99). -/
def dateRawMultiBad : DateObjectRaw :=
  { year := some (.str "2024"), month := some (.str "13"),
    day := some (.str "05"), hour := some (.str "99") }

/-- Raw captures carrying both a `Z` marker and an explicit offset. -/
def dateRawConflict : DateObjectRaw :=
  { tzutc := some "Z", tzhour := some (.str "+05"),
    tzminute := some (.str "30") }

/-- Characterization of the date parse pipeline as the source implements it:
formats are tried in order and the first structural match has its captures
validated — a success's components satisfy year ≥ 0, month 1‥12, day within
the code's `monthDays` bound (which adds the leap day to *every* month of a
leap year — see `monthDays`), hour 0‥23, minute/second 0‥59, ms 0‥999 and any
explicit timezone offset within ±14:00; missing components are defaulted from
the fixed default (year 2000, month 1, day 1, all else 0, no timezone); all
component violations are collected into one issue list (concretely both a
month and an hour violation); a `Z` marker together with a truthy explicit
offset is a validation error; and when no format matches the parse fails with
the generic message. -/
theorem dateParse_characterization :
    (∀ (fs1 : List DateFormat) (f : DateFormat) (fs2 : List DateFormat)
        (s : String) (g : DateObjectRaw), (∀ f1 ∈ fs1, f1 s = none) →
        f s = some g →
        DateObjectVariable.parseStr (fs1 ++ f :: fs2) s = DateObject.fromRaw g) ∧
    (∀ (fs : List DateFormat) (s : String), (∀ f ∈ fs, f s = none) →
        DateObjectVariable.parseStr fs s =
          .failure ["must be in a valid date format."]) ∧
    DateObject.fromRaw {} = .success (some ⟨2000, 1, 1, 0, 0, 0, 0, none⟩) ∧
    DateObject.fromRaw dateRawMultiBad =
      .failure [".month must be greater than 1", ".hour must be greater than 0"] ∧
    (∀ (raw : DateObjectRaw) (d : DateObject),
        DateObject.fromRaw raw = .success (some d) →
        0 ≤ d.year ∧ 1 ≤ d.month ∧ d.month ≤ 12 ∧ 1 ≤ d.day ∧
        d.day ≤ monthDays d.year d.month ∧ 0 ≤ d.hour ∧ d.hour ≤ 23 ∧
        0 ≤ d.minute ∧ d.minute ≤ 59 ∧ 0 ≤ d.second ∧ d.second ≤ 59 ∧
        0 ≤ d.ms ∧ d.ms ≤ 999 ∧
        (∀ hh mm, d.tz = some (.offset hh mm) →
          -14 ≤ hh ∧ hh ≤ 14 ∧ 0 ≤ mm ∧ mm ≤ 59 ∧
          -1400 ≤ hh * 100 + (if hh < 0 then -mm else mm) ∧
          hh * 100 + (if hh < 0 then -mm else mm) ≤ 1400)) ∧
    (∀ raw : DateObjectRaw, raw.tzutc = some "Z" →
        truthyRawOpt raw.tzhour = true →
        ∃ is, DateObject.fromRaw raw = .failure is ∧
          ".tz can only be Z (UTC) or an offset" ∈ is) := by
  refine ⟨dateParseStr_first_match, dateParseStr_no_match, by decide, by decide,
    fromRaw_success_ranges, ?_⟩
  intro raw h1 h2
  have hmem : ".tz can only be Z (UTC) or an offset" ∈ (tzItem raw).2 := by
    unfold tzItem
    rw [h1]
    exact tzCompute_conflict raw.tzhour raw.tzminute h2
  have hmemIss : ".tz can only be Z (UTC) or an offset" ∈ fromRawIssues raw := by
    unfold fromRawIssues
    simp [List.mem_append, hmem]
  have hne : fromRawIssues raw ≠ [] := List.ne_nil_of_mem hmemIss
  refine ⟨fromRawIssues raw, ?_, hmemIss⟩
  unfold DateObject.fromRaw
  rw [if_neg hne]

/-- Concrete instances of the pipeline characterization: one matching format
validates its captures; an unmatched input fails with the generic message;
the `Z`-plus-offset raw fails with the conflict message; defaults satisfy the
ranges. -/
theorem dateParse_characterization_instances :
    DateObjectVariable.parseStr [fun _ => some {}] "2000-01-01" =
      DateObject.fromRaw {} ∧
    DateObjectVariable.parseStr [fun _ => none] "bogus" =
      .failure ["must be in a valid date format."] ∧
    (∃ is, DateObject.fromRaw dateRawConflict = .failure is ∧
      ".tz can only be Z (UTC) or an offset" ∈ is) ∧
    1 ≤ (⟨2000, 1, 1, 0, 0, 0, 0, none⟩ : DateObject).month :=
  ⟨dateParse_characterization.1 [] (fun _ => some {}) [] "2000-01-01" {} (by simp) rfl,
   dateParse_characterization.2.1 [fun _ => none] "bogus"
     (by
       intro f hf
       simp only [List.mem_cons, List.not_mem_nil, or_false] at hf
       subst hf
       rfl),
   dateParse_characterization.2.2.2.2.2 dateRawConflict rfl rfl,
   (dateParse_characterization.2.2.2.2.1 {} ⟨2000, 1, 1, 0, 0, 0, 0, none⟩
     dateParse_characterization.2.2.1).2.1⟩

/-- Raw captures for day 32 of January in the leap year 2024 (the default
`datetimeTz` format structurally matches the input string `2024-01-32`). -/
def dateRawJan32Leap : DateObjectRaw :=
  { year := some (.str "2024"), month := some (.str "01"), day := some (.str "32") }

/-- The same captures in the non-leap year 2023. -/
def dateRawJan32NonLeap : DateObjectRaw :=
  { year := some (.str "2023"), month := some (.str "01"), day := some (.str "32") }

/-- C9: evaluating the code at the failing input.  `monthDays` is
`(regularDays[month-1] ?? 30) + leapYear(year)` — the leap day is added to
*every* month of a leap year, not only February — so January 2024 gets a
32-day bound and `DateObject.from` accepts day 32 of January 2024, while the
same captures in the non-leap year 2023 are rejected; the claimed
leap-year-aware days-in-that-month bound (31 for January in every year) is
violated. -/
theorem C9_monthDays_leap_every_month :
    monthDays 2024 1 = 32 ∧ monthDays 2023 1 = 31 ∧
    DateObject.fromRaw dateRawJan32Leap =
      .success (some ⟨2024, 1, 32, 0, 0, 0, 0, none⟩) ∧
    DateObject.fromRaw dateRawJan32NonLeap =
      .failure [".day must be greater than 1"] :=
  ⟨by decide, by decide, by decide, by decide⟩

end Varcor
